import Mathlib

set_option maxHeartbeats 1000000

/-!
Shallow embedding of the repository's three batch scripts:

* `Code/filterR.py` — the Column Dropper: reads a CSV in chunks, removes
  every column whose name ends with a suffix (default `"R"`), writes the
  filtered chunks back out in order.
* `Code/filterVAR.py` — the Feature Subsetter: keeps the target column
  `Q49` plus the predictor columns declared in `COLUMN_GROUPS`, renames
  them, reorders them, and validates completeness.
* `data_prep.py` — the Transaction Flattener: per-cell string-to-float
  coercion and slash-splitting of compound fields.

Datasets are modelled column-major: an ordered list of named columns,
each holding the column's cells in row order.  File-system interaction is
modelled by passing the would-be file contents as values (`none` for a
missing file) and returning the would-be output dataset; an uncaught
Python exception is modelled by `Except.error`.
-/

/-- Decidable equality of results, used to evaluate the embedding on
concrete inputs. -/
instance {ε α : Type} [DecidableEq ε] [DecidableEq α] : DecidableEq (Except ε α) := fun a b =>
  match a, b with
  | .ok x, .ok y =>
    if h : x = y then isTrue (by rw [h]) else isFalse (fun hh => h (Except.ok.inj hh))
  | .error x, .error y =>
    if h : x = y then isTrue (by rw [h]) else isFalse (fun hh => h (Except.error.inj hh))
  | .ok _, .error _ => isFalse (fun hh => Except.noConfusion hh)
  | .error _, .ok _ => isFalse (fun hh => Except.noConfusion hh)

/-- Embedding of Python `str.endswith`: character-level suffix test. -/
def pyEndsWith (s suffix : String) : Bool := suffix.toList.isSuffixOf s.toList

/-- Tabular dataset: an ordered list of named columns, each column a list
of cell strings aligned by row index. -/
structure Dataset where
  cols : List (String × List String)
  deriving Repr, DecidableEq

/-- Column names of a dataset, in order (pandas `df.columns`). -/
def Dataset.names (ds : Dataset) : List String := ds.cols.map Prod.fst

/-- Values of the first column named `name` (pandas label lookup `df[name]`). -/
def Dataset.getCol (ds : Dataset) (name : String) : Option (List String) :=
  (ds.cols.find? (fun c => c.1 == name)).map Prod.snd

/-- Path constant `SOURCE_FILE` of `filterR.py`, relative to the project root. -/
def SOURCE_FILE : String := "Data/Q1_Q260_filtered_30%row_and_column.csv"

/-- Basename of the Column Dropper's source file. -/
def SOURCE_FILE_NAME : String := "Q1_Q260_filtered_30%row_and_column.csv"

/-- Basename of the Column Dropper's output file. -/
def OUTPUT_FILE_NAME : String := "Q1_Q260_filtered_30%row_and_column_no_R.csv"

/-- Embedding of `filterR._columns_to_drop`: the column names that end
with the provided suffix (the script calls it with its default `"R"`). -/
def columns_to_drop (columns : List String) (suffix : String) : List String :=
  columns.filter (fun column => pyEndsWith column suffix)

/-- Embedding of pandas `chunk.drop(columns=toDrop, errors="ignore")`:
remove every column whose name is listed in `toDrop`; absent labels are
ignored (tolerant removal). -/
def dropColumns (ds : Dataset) (toDrop : List String) : Dataset :=
  ⟨ds.cols.filter (fun c => !toDrop.contains c.1)⟩

/-- Row-wise (vertical) concatenation of two datasets with equal headers,
matching columns by position. -/
def vcat (a b : Dataset) : Dataset :=
  ⟨List.zipWith (fun c d => (c.1, c.2 ++ d.2)) a.cols b.cols⟩

/-- Dataset obtained by concatenating a list of chunks in order. -/
def concatChunks : List Dataset → Dataset
  | [] => ⟨[]⟩
  | [d] => d
  | d :: e :: rest => vcat d (concatChunks (e :: rest))

/-- Embedding of `filterR._write_filtered_csv`: every chunk is filtered
with the same drop set and the results are written out in order (first
chunk with header, later chunks appended), i.e. vertically concatenated. -/
def write_filtered_csv (chunks : List Dataset) (toDrop : List String) : Dataset :=
  concatChunks (chunks.map (fun c => dropColumns c toDrop))

/-- Observable outcome of one script invocation: exit status, the lines
printed to standard output and standard error, and the output dataset
written (or `none` when no output file is produced). -/
structure RunResult where
  exitCode : Nat
  stdout : List String
  stderr : List String
  output : Option Dataset
  deriving Repr, DecidableEq

/-- Error line `filterR.main` prints when the source file is missing. -/
def missingInputMsg : String :=
  "Source file not found. Expected input at " ++ SOURCE_FILE ++
  "\nUpdate Code/filter.py if the dataset has moved."

/-- Progress line `filterR.main` prints when the drop set is empty. -/
def noColumnsMsg : String := "No columns ending with 'R' found; nothing to filter."

/-- Progress line `filterR.main` prints before filtering. -/
def droppingMsg (toDrop : List String) : String :=
  "Dropping columns (sample): " ++ String.intercalate ", " (toDrop.take 5) ++
  (if toDrop.length > 5 then "..." else "")

/-- Result line `filterR.main` prints after writing the filtered file. -/
def writtenMsg (toDrop : List String) : String :=
  "Filtered dataset written to " ++ OUTPUT_FILE_NAME ++ " with " ++
  toString toDrop.length ++ " columns removed."

/-- Progress line `filterR.main` prints after finding the source file. -/
def loadingMsg : String := "Loading column headers from " ++ SOURCE_FILE_NAME ++ "..."

/-- Embedding of `filterR.main`.  The argument is `none` when the source
file does not exist, otherwise the chunk list the CSV reader yields.  A
`.error` result models an uncaught Python exception (here: `next` on a
reader that yields no chunk). -/
def filterR_main (source : Option (List Dataset)) : Except String RunResult :=
  match source with
  | none => .ok ⟨1, [], [missingInputMsg], none⟩
  | some [] => .error "StopIteration"
  | some (first :: rest) =>
    let toDrop := columns_to_drop first.names "R"
    if toDrop.isEmpty then
      .ok ⟨0, [loadingMsg, noColumnsMsg], [], none⟩
    else
      .ok ⟨0, [loadingMsg, droppingMsg toDrop, writtenMsg toDrop], [],
           some (write_filtered_csv (first :: rest) toDrop)⟩

/-!
Embedding of `Code/filterVAR.py` (Feature Subsetter).
-/

/-- Constant `TARGET_COLUMN` of `filterVAR.py`. -/
def TARGET_COLUMN : String := "Q49"

/-- Constant `TARGET_RENAMED` of `filterVAR.py`. -/
def TARGET_RENAMED : String := "LifeSat"

/-- Constant `COLUMN_GROUPS` of `filterVAR.py`: ordered groups of
(source WVS column id, renamed identifier) pairs, exactly the
non-commented entries of the script. -/
def COLUMN_GROUPS : List (String × List (String × String)) :=
  [("com", [("Q47", "SHealth"), ("Q50", "FinSat"), ("Q56", "FinSat_ComParent"),
            ("Q142", "RiskUnemployed"), ("Q143", "EducationNextGen")]),
   ("aut", [("Q48", "FreeChoice"), ("Q131", "Security"), ("Q146", "PublicSecurity_War"),
            ("Q147", "PublicSecurity_Terrorism"), ("Q148", "PublicSecurity_CivilWar"),
            ("Q251", "Democracy"), ("Q253", "HumanRights")]),
   ("rel", [("Q57", "Trust"), ("Q58", "Trust_Family"), ("Q59", "Trust_Neighbors"),
            ("Q60", "Trust_Acquaintances"), ("Q61", "Trust_Strangers"),
            ("Q62", "Trust_OtherReligion"), ("Q63", "Trust_OtherNationality"),
            ("Q94", "Membership_Religious"), ("Q95", "Membership_Sport"),
            ("Q96", "Membership_Art"), ("Q97", "Membership_LaborUnion"),
            ("Q98", "Membership_Political"), ("Q99", "Membership_Environmental"),
            ("Q100", "Membership_Professional"), ("Q101", "Membership_Charity"),
            ("Q102", "Membership_Consumer"), ("Q103", "Membership_SelfHelp"),
            ("Q104", "Membership_Women"), ("Q105", "Membership_Other"),
            ("Q164", "GodImportance"), ("Q171", "ReligiousAttendance"),
            ("Q172", "Pray"), ("Q254", "NationalPride"), ("Q255", "CloseToTown"),
            ("Q256", "CloseToRegion"), ("Q257", "CloseToCountry"),
            ("Q258", "CloseToContinent"), ("Q259", "CloseToWorld")])]

/-- Embedding of `filterVAR._column_pairs`: all (source, renamed) pairs in
group order, then declaration order within each group. -/
def column_pairs (groups : List (String × List (String × String))) : List (String × String) :=
  (groups.map Prod.snd).flatten

/-- Embedding of `filterVAR._ordered_columns`: the expected output column
order, target first. -/
def ordered_columns (groups : List (String × List (String × String))) : List String :=
  TARGET_RENAMED :: (column_pairs groups).map Prod.snd

/-- Local `keep_columns` of `filterVAR.build_dataset`: the required source
columns, target first. -/
def keep_columns (groups : List (String × List (String × String))) : List String :=
  TARGET_COLUMN :: (column_pairs groups).map Prod.fst

/-- Lexicographic character-level comparison, matching how Python
`sorted` orders strings (by code point). -/
def charListLe : List Char → List Char → Bool
  | [], _ => true
  | _ :: _, [] => false
  | a :: as, b :: bs =>
    if a.toNat < b.toNat then true
    else if b.toNat < a.toNat then false
    else charListLe as bs

/-- Insertion step of string sorting. -/
def insertSorted (a : String) : List String → List String
  | [] => [a]
  | b :: t => if charListLe a.toList b.toList then a :: b :: t else b :: insertSorted a t

/-- Embedding of Python `sorted` on a list of strings. -/
def sortStrings (l : List String) : List String := l.foldr insertSorted []

/-- Missing-identifier computation of `filterVAR._validate_columns`:
`sorted(set(expected) - set(available))`. -/
def missing_columns (expected available : List String) : List String :=
  sortStrings ((expected.filter (fun c => !available.contains c)).dedup)

/-- Message of the `KeyError` raised by `filterVAR._validate_columns`. -/
def missingColumnsMsg (missing : List String) : String :=
  "Missing columns in source CSV. Update the predictor lists or " ++
  "regenerate the input. Missing: " ++ String.intercalate ", " missing

/-- Python `dict` insertion: overwrite the value of an existing key, else
append the new binding. -/
def dictInsert (d : List (String × String)) (k v : String) : List (String × String) :=
  if d.any (fun e => e.1 == k) then d.map (fun e => if e.1 == k then (e.1, v) else e)
  else d ++ [(k, v)]

/-- Rename dictionary of `filterVAR.build_dataset`: starts with the
target pair and is updated with every predictor pair. -/
def renameMap (groups : List (String × List (String × String))) : List (String × String) :=
  (column_pairs groups).foldl (fun d p => dictInsert d p.1 p.2) [(TARGET_COLUMN, TARGET_RENAMED)]

/-- Column renaming as pandas `df.rename(columns=m)` applies it to one
label: the mapped name when the label is a key, otherwise the label. -/
def applyRename (m : List (String × String)) (n : String) : String :=
  ((m.find? (fun e => e.1 == n)).map Prod.snd).getD n

/-- Label-based column selection as pandas `frame[names]` performs it:
pick, for each requested name in order, the column of that name; a
missing name is a `KeyError`. -/
def selectCols (cols : List (String × List String)) : List String → Option (List (String × List String))
  | [] => some []
  | n :: ns =>
    match cols.find? (fun c => c.1 == n) with
    | some c => (selectCols cols ns).map (fun rest => (n, c.2) :: rest)
    | none => none

/-- Embedding of `filterVAR.build_dataset`.  The `source` argument is the
dataset read from the selected CSV; `pd.read_csv(..., usecols=...)` keeps
the file's column order restricted to `keep_columns`, validation runs
before renaming, and the final reindex `frame[_ordered_columns()]`
selects columns by name in the declared order. -/
def build_dataset (groups : List (String × List (String × String))) (source : Dataset) :
    Except String Dataset :=
  let keep := keep_columns groups
  if keep.length = 1 then
    .error "Populate COLUMN_GROUPS before running the script."
  else
    let frame : Dataset := ⟨source.cols.filter (fun c => keep.contains c.1)⟩
    let missing := missing_columns keep frame.names
    if missing.isEmpty then
      let renamed : Dataset := ⟨frame.cols.map (fun c => (applyRename (renameMap groups) c.1, c.2))⟩
      match selectCols renamed.cols (ordered_columns groups) with
      | some cs => .ok ⟨cs⟩
      | none => .error "KeyError: column not found during reindex"
    else
      .error (missingColumnsMsg missing)

/-- Row count of a dataset (pandas `df.shape[0]`), read off the first
column. -/
def Dataset.nRows (ds : Dataset) : Nat := ((ds.cols.head?).map (fun c => c.2.length)).getD 0

/-- Embedding of `filterVAR.main`: any exception from `build_dataset` is
caught, reported on standard error, and turned into exit status 1 with no
output written; on success the dataset is written and a summary printed. -/
def varMain (groups : List (String × List (String × String))) (source : Dataset) : RunResult :=
  match build_dataset groups source with
  | .error msg =>
    ⟨1, [], ["Error while constructing SDT feature set: " ++ msg], none⟩
  | .ok ds =>
    ⟨0, ["Saved SDT subset with " ++ toString ds.nRows ++ " rows to lifesat_sdt_subset.csv."],
     [], some ds⟩

/-!
Embedding of `data_prep.py` (Transaction Flattener): the per-cell lambdas
applied to the flattened record columns.  A JSON scalar cell is `none`
(JSON null), a string, or a number; numeric values are modelled as exact
rationals, which is faithful for every decimal literal the claims
mention.
-/

/-- JSON scalar cell value as it appears in a flattened record column. -/
inductive PyVal where
  | none
  | str (s : String)
  | num (q : ℚ)
  deriving Repr, DecidableEq

/-- Python truthiness of a cell value: `None`, the empty string, and the
number 0 are falsy; everything else is truthy. -/
def pyTruthy : PyVal → Bool
  | .none => false
  | .str s => !s.isEmpty
  | .num q => !(q == 0)

/-- Accumulate the numeric value of a digit run. -/
def digitsVal (ds : List Char) : Nat :=
  ds.foldl (fun a c => 10 * a + (c.toNat - '0'.toNat)) 0

/-- Whitespace stripped by Python `float` around a numeric string. -/
def isPySpace (c : Char) : Bool :=
  c == ' ' || c == '\t' || c == '\n' || c == '\r'

/-- Parse the digits-dot-digits mantissa of a float literal, returning
the scaled integer mantissa, the number of fractional digits, and the
remaining characters; fails when no digit is present. -/
def parseMantissa (cs : List Char) : Option (Nat × Nat × List Char) :=
  let intPart := cs.takeWhile Char.isDigit
  let rest := cs.dropWhile Char.isDigit
  match rest with
  | '.' :: rest2 =>
    let fracPart := rest2.takeWhile Char.isDigit
    let rest3 := rest2.dropWhile Char.isDigit
    if intPart.isEmpty && fracPart.isEmpty then none
    else some (digitsVal intPart * 10 ^ fracPart.length + digitsVal fracPart,
               fracPart.length, rest3)
  | _ =>
    if intPart.isEmpty then none
    else some (digitsVal intPart, 0, rest)

/-- Parse an optional exponent suffix `e`/`E` with optional sign; fails
when the marker is present but no digit follows. -/
def parseExponent (cs : List Char) : Option (Int × List Char) :=
  match cs with
  | 'e' :: r | 'E' :: r =>
    let signed : Int × List Char :=
      match r with
      | '+' :: r2 => (1, r2)
      | '-' :: r2 => (-1, r2)
      | r2 => (1, r2)
    let ds := signed.2.takeWhile Char.isDigit
    let r2 := signed.2.dropWhile Char.isDigit
    if ds.isEmpty then none else some (signed.1 * (digitsVal ds : Int), r2)
  | r => some (0, r)

/-- Model of Python `float()` on the characters of a string: optional
surrounding whitespace, optional sign, decimal mantissa, optional
exponent, nothing left over.  (Special forms such as `inf`, `nan` and
digit-group underscores are outside the model.)  The value is assembled
as a single exact rational. -/
def parseFloatChars (cs : List Char) : Option ℚ :=
  let cs := ((cs.dropWhile isPySpace).reverse.dropWhile isPySpace).reverse
  let signed : Int × List Char :=
    match cs with
    | '+' :: r => (1, r)
    | '-' :: r => (-1, r)
    | r => (1, r)
  match parseMantissa signed.2 with
  | none => none
  | some (mant, fracLen, rest1) =>
    match parseExponent rest1 with
    | none => none
    | some (e, rest2) =>
      if rest2.isEmpty then
        let net : Int := e - (fracLen : Int)
        if 0 ≤ net then some (Rat.divInt (signed.1 * (mant : Int) * (10 : Int) ^ net.toNat) 1)
        else some (Rat.divInt (signed.1 * (mant : Int)) ((10 : Int) ^ ((-net).toNat)))
      else none

/-- Python `float(x)` on a cell value: numbers convert to their value,
strings are parsed (a parse failure is the `ValueError` the script does
not catch), `None` is a `TypeError`. -/
def pyFloat : PyVal → Except String ℚ
  | .num q => .ok q
  | .str s =>
    match parseFloatChars s.toList with
    | some q => .ok q
    | none => .error ("ValueError: could not convert string to float: " ++ s)
  | .none => .error "TypeError: float() argument must be a string or a real number"

/-- Embedding of the coercion lambda of `data_prep.py` lines 16-19:
`lambda x: float(x) if x else None`. -/
def floatIfTruthy (x : PyVal) : Except String (Option ℚ) :=
  if pyTruthy x then (pyFloat x).map some else .ok none

/-- Names of the four columns `data_prep.py` coerces with
`floatIfTruthy`. -/
def coercedFields : List String :=
  ["estate_map_latitude", "estate_map_longitude", "transaction_price", "discount_rate"]

/-- Python `str.split` with a single-character separator on a character
list: splitting never yields an empty part list. -/
def splitChars (sep : Char) : List Char → List (List Char)
  | [] => [[]]
  | c :: rest =>
    let r := splitChars sep rest
    if c == sep then [] :: r
    else
      match r with
      | h :: t => (c :: h) :: t
      | [] => [[c]]

/-- Embedding of Python `s.split('/')`. -/
def pySplitSlash (s : String) : List String :=
  (splitChars '/' s.toList).map (fun l => ⟨l⟩)

/-- Embedding of the compound-field lambda of `data_prep.py` lines 22-25:
`lambda x: float(x.split('/')[i]) if x else None` for part index `i`
(0 before the slash, 1 after it).  A missing part is the uncaught
`IndexError`, a non-numeric part the uncaught `ValueError`, and calling
`split` on a truthy non-string the uncaught `AttributeError`. -/
def splitIndexFloat (x : PyVal) (i : Nat) : Except String (Option ℚ) :=
  if pyTruthy x then
    match x with
    | .str s =>
      match (pySplitSlash s)[i]? with
      | some part =>
        match parseFloatChars part.toList with
        | some q => .ok (some q)
        | none => .error ("ValueError: could not convert string to float: " ++ part)
      | none => .error "IndexError: list index out of range"
    | .num _ => .error "AttributeError: float object has no attribute split"
    | .none => .error "AttributeError: NoneType object has no attribute split"
  else .ok none

/-!
Theorems.  General list-level lemmas come first, then one theorem per
claim (with witnesses for theorems that carry hypotheses).
-/

theorem names_filter (l : List (String × List String)) (p : String → Bool) :
    (l.filter (fun c => p c.1)).map Prod.fst = (l.map Prod.fst).filter p := by
  induction l with
  | nil => rfl
  | cons c t ih => by_cases h : p c.1 <;> simp [List.filter_cons, h, ih]

theorem dropColumns_header (ds : Dataset) (suffix : String) :
    dropColumns ds (columns_to_drop ds.names suffix)
      = ⟨ds.cols.filter (fun c => !pyEndsWith c.1 suffix)⟩ := by
  unfold dropColumns
  congr 1
  apply List.filter_congr
  intro c hc
  have hmem : c.1 ∈ ds.names := List.mem_map_of_mem Prod.fst hc
  by_cases h : pyEndsWith c.1 suffix
  · have : c.1 ∈ columns_to_drop ds.names suffix := by
      simp [columns_to_drop, List.mem_filter, hmem, h]
    simp [h, this]
  · have : c.1 ∉ columns_to_drop ds.names suffix := by
      simp [columns_to_drop, List.mem_filter, h]
    simp [h, this]

theorem dropColumns_of_names_eq (c : Dataset) (H : List String) (suffix : String)
    (h : c.names = H) :
    dropColumns c (columns_to_drop H suffix)
      = ⟨c.cols.filter (fun x => !pyEndsWith x.1 suffix)⟩ := by
  subst h
  exact dropColumns_header c suffix

theorem zipWith_filter_names (p : String → Bool) :
    ∀ (la lb : List (String × List String)), la.map Prod.fst = lb.map Prod.fst →
    (List.zipWith (fun c d => (c.1, c.2 ++ d.2)) la lb).filter (fun c => p c.1)
      = List.zipWith (fun c d => (c.1, c.2 ++ d.2))
          (la.filter (fun c => p c.1)) (lb.filter (fun c => p c.1))
  | [], lb, _ => by simp
  | a :: la, [], h => by simp at h
  | a :: la, b :: lb, h => by
    simp only [List.map_cons, List.cons.injEq] at h
    obtain ⟨h1, h2⟩ := h
    have ih := zipWith_filter_names p la lb h2
    by_cases hp : p a.1
    · simp [List.filter_cons, hp, ← h1, ih]
    · simp [List.filter_cons, hp, ← h1, ih]

theorem zipWith_names (la lb : List (String × List String))
    (h : la.map Prod.fst = lb.map Prod.fst) :
    (List.zipWith (fun c d => (c.1, c.2 ++ d.2)) la lb).map Prod.fst = la.map Prod.fst := by
  induction la generalizing lb with
  | nil => simp
  | cons a ta ih =>
    cases lb with
    | nil => simp at h
    | cons b tb =>
      simp only [List.map_cons, List.cons.injEq] at h
      simp [List.zipWith_cons_cons, ih tb h.2]

theorem concatChunks_names (H : List String) :
    ∀ (chunks : List Dataset), chunks ≠ [] → (∀ c ∈ chunks, c.names = H) →
      (concatChunks chunks).names = H
  | [], h, _ => absurd rfl h
  | [d], _, hall => hall d (by simp)
  | d :: e :: rest, _, hall => by
    have hrest : (concatChunks (e :: rest)).names = H :=
      concatChunks_names H (e :: rest) (by simp)
        (fun c hc => hall c (List.mem_cons_of_mem d hc))
    have hd : d.names = H := hall d (by simp)
    show (vcat d (concatChunks (e :: rest))).names = H
    unfold vcat Dataset.names
    rw [zipWith_names]
    · exact hd
    · show d.names = (concatChunks (e :: rest)).names
      rw [hd, hrest]

theorem write_filtered_cols (H : List String) (suffix : String) :
    ∀ (chunks : List Dataset), chunks ≠ [] → (∀ c ∈ chunks, c.names = H) →
      (write_filtered_csv chunks (columns_to_drop H suffix)).cols
        = (concatChunks chunks).cols.filter (fun c => !pyEndsWith c.1 suffix)
  | [], h, _ => absurd rfl h
  | [d], _, hall => by
    show (concatChunks [dropColumns d (columns_to_drop H suffix)]).cols
      = (concatChunks [d]).cols.filter (fun c => !pyEndsWith c.1 suffix)
    rw [show concatChunks [d] = d from rfl,
        show concatChunks [dropColumns d (columns_to_drop H suffix)]
          = dropColumns d (columns_to_drop H suffix) from rfl,
        dropColumns_of_names_eq d H suffix (hall d (by simp))]
  | d :: e :: rest, _, hall => by
    have hd : d.names = H := hall d (by simp)
    have hrestall : ∀ c ∈ e :: rest, c.names = H :=
      fun c hc => hall c (List.mem_cons_of_mem d hc)
    have ih := write_filtered_cols H suffix (e :: rest) (by simp) hrestall
    have hnames : (concatChunks (e :: rest)).names = H :=
      concatChunks_names H (e :: rest) (by simp) hrestall
    show (vcat (dropColumns d (columns_to_drop H suffix))
            (write_filtered_csv (e :: rest) (columns_to_drop H suffix))).cols
      = (vcat d (concatChunks (e :: rest))).cols.filter (fun c => !pyEndsWith c.1 suffix)
    unfold vcat
    rw [dropColumns_of_names_eq d H suffix hd]
    have hw := zipWith_filter_names (fun n => !pyEndsWith n suffix)
      d.cols (concatChunks (e :: rest)).cols
      (by show d.names = (concatChunks (e :: rest)).names; rw [hd, hnames])
    simp only [ih, hw]

/-- C1: Column Dropper correctness — for every chunked dataset with a
stable header and every suffix, the written output is exactly the input
with the suffix-ending columns removed: retained columns appear in their
original relative order with identical row values, and row order is
preserved across chunks (the whole output equals the columnwise filter of
the concatenated input). -/
theorem column_dropper_correct (chunks : List Dataset) (H : List String) (suffix : String)
    (hne : chunks ≠ []) (hH : ∀ c ∈ chunks, c.names = H) :
    (write_filtered_csv chunks (columns_to_drop H suffix)).cols
        = (concatChunks chunks).cols.filter (fun c => !pyEndsWith c.1 suffix) ∧
    (write_filtered_csv chunks (columns_to_drop H suffix)).names
        = H.filter (fun n => !pyEndsWith n suffix) := by
  have hcols := write_filtered_cols H suffix chunks hne hH
  refine ⟨hcols, ?_⟩
  calc (write_filtered_csv chunks (columns_to_drop H suffix)).names
      = ((concatChunks chunks).cols.filter (fun c => !pyEndsWith c.1 suffix)).map Prod.fst := by
        show (write_filtered_csv chunks (columns_to_drop H suffix)).cols.map Prod.fst = _
        rw [hcols]
    _ = ((concatChunks chunks).cols.map Prod.fst).filter (fun n => !pyEndsWith n suffix) :=
        names_filter (concatChunks chunks).cols (fun n => !pyEndsWith n suffix)
    _ = H.filter (fun n => !pyEndsWith n suffix) := by
        rw [show (concatChunks chunks).cols.map Prod.fst = (concatChunks chunks).names from rfl,
            concatChunks_names H chunks hne hH]

/-- Witness for C1 at a concrete two-chunk dataset with suffix `"R"`. -/
theorem column_dropper_correct_witness :
    (write_filtered_csv
        [⟨[("A", ["1"]), ("B_R", ["2"]), ("C", ["3"])]⟩,
         ⟨[("A", ["4"]), ("B_R", ["5"]), ("C", ["6"])]⟩]
        (columns_to_drop ["A", "B_R", "C"] "R")).cols
      = (concatChunks
          [⟨[("A", ["1"]), ("B_R", ["2"]), ("C", ["3"])]⟩,
           ⟨[("A", ["4"]), ("B_R", ["5"]), ("C", ["6"])]⟩]).cols.filter
          (fun c => !pyEndsWith c.1 "R") ∧
    (write_filtered_csv
        [⟨[("A", ["1"]), ("B_R", ["2"]), ("C", ["3"])]⟩,
         ⟨[("A", ["4"]), ("B_R", ["5"]), ("C", ["6"])]⟩]
        (columns_to_drop ["A", "B_R", "C"] "R")).names
      = ["A", "B_R", "C"].filter (fun n => !pyEndsWith n "R") :=
  column_dropper_correct
    [⟨[("A", ["1"]), ("B_R", ["2"]), ("C", ["3"])]⟩,
     ⟨[("A", ["4"]), ("B_R", ["5"]), ("C", ["6"])]⟩]
    ["A", "B_R", "C"] "R" (by decide) (by decide)

/-- C6: idempotence of the Column Dropper — on the output of one run the
drop set computed with the same suffix is empty, so a second run leaves
the dataset unchanged. -/
theorem column_dropper_idempotent (ds : Dataset) (suffix : String) :
    columns_to_drop (dropColumns ds (columns_to_drop ds.names suffix)).names suffix = [] ∧
    dropColumns (dropColumns ds (columns_to_drop ds.names suffix))
        (columns_to_drop (dropColumns ds (columns_to_drop ds.names suffix)).names suffix)
      = dropColumns ds (columns_to_drop ds.names suffix) := by
  have hdrop := dropColumns_header ds suffix
  have hnames : (dropColumns ds (columns_to_drop ds.names suffix)).names
      = ds.names.filter (fun n => !pyEndsWith n suffix) := by
    rw [hdrop]
    show (ds.cols.filter (fun c => !pyEndsWith c.1 suffix)).map Prod.fst = _
    exact names_filter ds.cols (fun n => !pyEndsWith n suffix)
  have hempty : columns_to_drop (dropColumns ds (columns_to_drop ds.names suffix)).names suffix
      = [] := by
    rw [hnames]
    unfold columns_to_drop
    rw [List.filter_eq_nil_iff]
    intro a ha
    have h2 := (List.mem_filter.mp ha).2
    simp at h2 ⊢
    exact h2
  refine ⟨hempty, ?_⟩
  rw [hempty]
  simp [dropColumns]

/-- C7 counterexample: an existing source file whose CSV reader yields
no chunk (an empty file) refutes the claim that a missing source is the
only failure mode — `main` has no try/except, so `next` on the reader
raises an uncaught exception and the run does not exit with status 0. -/
theorem column_dropper_exit_status_counterexample :
    filterR_main (some []) = .error "StopIteration" ∧
    ∀ r, ¬ (filterR_main (some []) = .ok r ∧ r.exitCode = 0) := by
  refine ⟨rfl, ?_⟩
  intro r hr
  have h := hr.1
  rw [show filterR_main (some []) = .error "StopIteration" from rfl] at h
  exact Except.noConfusion h

/-- C7 amended: when the source file is missing the run exits with
status 1, writes no output, and prints an error naming the expected path
on standard error; when the source file exists and the CSV reader yields
at least one chunk the run exits with status 0; but an existing source
on which the reader yields no chunk makes the run abort with an uncaught
exception instead of exiting 0, so a missing source is not the only
failure mode. -/
theorem column_dropper_exit_status :
    (∃ r, filterR_main none = .ok r ∧ r.exitCode = 1 ∧ r.output = none ∧
       r.stderr = ["Source file not found. Expected input at " ++ SOURCE_FILE ++
                   "\nUpdate Code/filter.py if the dataset has moved."]) ∧
    (∀ (first : Dataset) (rest : List Dataset),
       ∃ r, filterR_main (some (first :: rest)) = .ok r ∧ r.exitCode = 0) ∧
    filterR_main (some []) = .error "StopIteration" := by
  refine ⟨⟨⟨1, [], [missingInputMsg], none⟩, rfl, rfl, rfl, rfl⟩, ?_, rfl⟩
  intro first rest
  by_cases h : (columns_to_drop first.names "R").isEmpty
  · exact ⟨⟨0, [loadingMsg, noColumnsMsg], [], none⟩, by simp [filterR_main, h], rfl⟩
  · exact ⟨⟨0, [loadingMsg, droppingMsg (columns_to_drop first.names "R"),
                writtenMsg (columns_to_drop first.names "R")], [],
            some (write_filtered_csv (first :: rest) (columns_to_drop first.names "R"))⟩,
           by simp [filterR_main, h], rfl⟩

/-- C9: empty drop set frame property — when no column name of the input
ends with the suffix `"R"`, the Column Dropper writes no output file,
prints that nothing needed filtering, and exits with status 0. -/
theorem column_dropper_empty_drop_set (first : Dataset) (rest : List Dataset)
    (h : ∀ n ∈ first.names, pyEndsWith n "R" = false) :
    ∃ r, filterR_main (some (first :: rest)) = .ok r ∧
      r.exitCode = 0 ∧ r.output = none ∧ noColumnsMsg ∈ r.stdout := by
  have hd : columns_to_drop first.names "R" = [] := by
    unfold columns_to_drop
    rw [List.filter_eq_nil_iff]
    intro a ha
    simp [h a ha]
  refine ⟨⟨0, [loadingMsg, noColumnsMsg], [], none⟩, ?_, rfl, rfl, by simp⟩
  simp [filterR_main, hd]

/-- Witness for C9 at a concrete one-chunk dataset with no R-suffixed
column. -/
theorem column_dropper_empty_drop_set_witness :
    ∃ r, filterR_main (some [⟨[("A", ["1"]), ("B", ["2"])]⟩]) = .ok r ∧
      r.exitCode = 0 ∧ r.output = none ∧ noColumnsMsg ∈ r.stdout :=
  column_dropper_empty_drop_set ⟨[("A", ["1"]), ("B", ["2"])]⟩ [] (by decide)

theorem mem_insertSorted (a x : String) (l : List String) :
    x ∈ insertSorted a l ↔ x = a ∨ x ∈ l := by
  induction l with
  | nil => simp [insertSorted]
  | cons b t ih =>
    unfold insertSorted
    by_cases h : charListLe a.toList b.toList
    · rw [if_pos h]
      simp
    · rw [if_neg h]
      simp only [List.mem_cons, ih]
      tauto

theorem mem_sortStrings (x : String) (l : List String) :
    x ∈ sortStrings l ↔ x ∈ l := by
  induction l with
  | nil => simp [sortStrings]
  | cons a t ih =>
    unfold sortStrings at ih ⊢
    simp only [List.foldr_cons, mem_insertSorted, ih, List.mem_cons]

theorem mem_missing_columns (expected available : List String) (m : String) :
    m ∈ missing_columns expected available ↔ m ∈ expected ∧ m ∉ available := by
  unfold missing_columns
  rw [mem_sortStrings, List.mem_dedup, List.mem_filter]
  simp

theorem build_dataset_missing_eq (groups : List (String × List (String × String)))
    (source : Dataset)
    (hlen : ¬ (keep_columns groups).length = 1)
    (hne : ¬ (missing_columns (keep_columns groups)
        (Dataset.mk (source.cols.filter
          (fun c => (keep_columns groups).contains c.1))).names).isEmpty = true) :
    build_dataset groups source
      = .error (missingColumnsMsg (missing_columns (keep_columns groups)
          (Dataset.mk (source.cols.filter
            (fun c => (keep_columns groups).contains c.1))).names)) := by
  unfold build_dataset
  simp only [hlen, if_false]
  rw [if_neg hne]

/-- C4: missing-column atomicity and completeness — when any required
source column is absent, the Feature Subsetter exits with status 1,
writes no output, and the error line printed on standard error carries a
list that enumerates every missing identifier, not merely the first. -/
theorem feature_subsetter_missing_columns (source : Dataset) (m : String)
    (hm : m ∈ keep_columns COLUMN_GROUPS) (habs : m ∉ source.names) :
    (varMain COLUMN_GROUPS source).exitCode = 1 ∧
    (varMain COLUMN_GROUPS source).output = none ∧
    ∃ lst, build_dataset COLUMN_GROUPS source = .error (missingColumnsMsg lst) ∧
      (varMain COLUMN_GROUPS source).stderr
        = ["Error while constructing SDT feature set: " ++ missingColumnsMsg lst] ∧
      ∀ m2 ∈ keep_columns COLUMN_GROUPS, m2 ∉ source.names → m2 ∈ lst := by
  have hsubnames : ∀ m2, m2 ∉ source.names →
      m2 ∉ (Dataset.mk (source.cols.filter
        (fun c => (keep_columns COLUMN_GROUPS).contains c.1))).names := by
    intro m2 hm2 hmem
    apply hm2
    have heq : (Dataset.mk (source.cols.filter
        (fun c => (keep_columns COLUMN_GROUPS).contains c.1))).names
        = source.names.filter (fun nm => (keep_columns COLUMN_GROUPS).contains nm) :=
      names_filter source.cols (fun nm => (keep_columns COLUMN_GROUPS).contains nm)
    rw [heq] at hmem
    exact (List.mem_filter.mp hmem).1
  have hmiss_mem : ∀ m2 ∈ keep_columns COLUMN_GROUPS, m2 ∉ source.names →
      m2 ∈ missing_columns (keep_columns COLUMN_GROUPS)
        (Dataset.mk (source.cols.filter
          (fun c => (keep_columns COLUMN_GROUPS).contains c.1))).names := by
    intro m2 hk ha
    exact (mem_missing_columns _ _ _).mpr ⟨hk, hsubnames m2 ha⟩
  have hne : ¬ (missing_columns (keep_columns COLUMN_GROUPS)
      (Dataset.mk (source.cols.filter
        (fun c => (keep_columns COLUMN_GROUPS).contains c.1))).names).isEmpty = true := by
    intro hcontra
    rw [List.isEmpty_iff] at hcontra
    have hmm := hmiss_mem m hm habs
    rw [hcontra] at hmm
    simp at hmm
  have hb := build_dataset_missing_eq COLUMN_GROUPS source (by decide) hne
  exact ⟨by simp [varMain, hb], by simp [varMain, hb],
    missing_columns (keep_columns COLUMN_GROUPS)
      (Dataset.mk (source.cols.filter
        (fun c => (keep_columns COLUMN_GROUPS).contains c.1))).names,
    hb, by simp [varMain, hb], hmiss_mem⟩

/-- Witness for C4: a source dataset that lacks the required columns
`Q49` and `Q47` (among others). -/
theorem feature_subsetter_missing_columns_witness :
    (varMain COLUMN_GROUPS ⟨[("Q47", ["3"]), ("X", ["9"])]⟩).exitCode = 1 ∧
    (varMain COLUMN_GROUPS ⟨[("Q47", ["3"]), ("X", ["9"])]⟩).output = none ∧
    ∃ lst, build_dataset COLUMN_GROUPS ⟨[("Q47", ["3"]), ("X", ["9"])]⟩
        = .error (missingColumnsMsg lst) ∧
      (varMain COLUMN_GROUPS ⟨[("Q47", ["3"]), ("X", ["9"])]⟩).stderr
        = ["Error while constructing SDT feature set: " ++ missingColumnsMsg lst] ∧
      ∀ m2 ∈ keep_columns COLUMN_GROUPS,
        m2 ∉ (Dataset.mk [("Q47", ["3"]), ("X", ["9"])]).names → m2 ∈ lst :=
  feature_subsetter_missing_columns ⟨[("Q47", ["3"]), ("X", ["9"])]⟩ "Q49"
    (by decide) (by decide)

/-- C8: degenerate configuration — when the column-group mapping declares
no predictor pairs, `build_dataset` raises the configuration error and
the run exits with status 1 producing no output. -/
theorem feature_subsetter_degenerate (groups : List (String × List (String × String)))
    (source : Dataset) (h : column_pairs groups = []) :
    build_dataset groups source
        = .error "Populate COLUMN_GROUPS before running the script." ∧
    (varMain groups source).exitCode = 1 ∧ (varMain groups source).output = none := by
  have hlen : (keep_columns groups).length = 1 := by
    unfold keep_columns
    rw [h]
    rfl
  have hb : build_dataset groups source
      = .error "Populate COLUMN_GROUPS before running the script." := by
    unfold build_dataset
    simp only [hlen, if_true]
  exact ⟨hb, by simp [varMain, hb], by simp [varMain, hb]⟩

/-- Witness for C8 at the empty group mapping and a nonempty source. -/
theorem feature_subsetter_degenerate_witness :
    build_dataset [("com", [])] ⟨[("Q49", ["7"])]⟩
        = .error "Populate COLUMN_GROUPS before running the script." ∧
    (varMain [("com", [])] ⟨[("Q49", ["7"])]⟩).exitCode = 1 ∧
    (varMain [("com", [])] ⟨[("Q49", ["7"])]⟩).output = none :=
  feature_subsetter_degenerate [("com", [])] ⟨[("Q49", ["7"])]⟩ (by decide)

theorem find?_filter_keep (l : List (String × List String)) (q : String → Bool) (nm : String)
    (hq : q nm = true) :
    (l.filter (fun c => q c.1)).find? (fun c => c.1 == nm) = l.find? (fun c => c.1 == nm) := by
  induction l with
  | nil => rfl
  | cons c t ih =>
    by_cases hc : c.1 = nm
    · have hqc : q c.1 = true := by rw [hc]; exact hq
      simp [List.filter_cons, hqc, List.find?_cons, hc, hq]
    · by_cases hqc : q c.1 = true
      · simp [List.filter_cons, hqc, List.find?_cons, hc, ih]
      · simp [List.filter_cons, hqc, List.find?_cons, hc, ih]

theorem find?_of_mem_names (l : List (String × List String)) (nm : String)
    (h : nm ∈ l.map Prod.fst) :
    ∃ v, l.find? (fun c => c.1 == nm) = some (nm, v) := by
  induction l with
  | nil => simp at h
  | cons c t ih =>
    by_cases hc : c.1 = nm
    · subst hc
      exact ⟨c.2, by simp [List.find?_cons]⟩
    · have h2 : nm ∈ t.map Prod.fst := by
        rw [List.map_cons, List.mem_cons] at h
        rcases h with h | h
        · exact absurd h.symm hc
        · exact h
      obtain ⟨v, hv⟩ := ih h2
      exact ⟨v, by simp [List.find?_cons, hc, hv]⟩

theorem find?_map_rename (M : List (String × String)) (keepL : List String)
    (src rn : String)
    (hiff : ∀ nm ∈ keepL, (applyRename M nm = rn ↔ nm = src)) :
    ∀ (l : List (String × List String)), (∀ c ∈ l, c.1 ∈ keepL) →
    (l.map (fun c => (applyRename M c.1, c.2))).find? (fun c => c.1 == rn)
      = (l.find? (fun c => c.1 == src)).map (fun c => (applyRename M c.1, c.2))
  | [], _ => rfl
  | c :: t, hall => by
    have hc1 : c.1 ∈ keepL := hall c (by simp)
    have ih := find?_map_rename M keepL src rn hiff t
      (fun d hd => hall d (List.mem_cons_of_mem c hd))
    by_cases h : c.1 = src
    · have hr : applyRename M c.1 = rn := (hiff c.1 hc1).mpr h
      subst h
      simp [List.map_cons, List.find?_cons, hr]
    · have hr : ¬ (applyRename M c.1 = rn) := fun hh => h ((hiff c.1 hc1).mp hh)
      simp [List.map_cons, List.find?_cons, hr, h, ih]

theorem selectCols_of_forall (cols : List (String × List String)) (g : String → List String) :
    ∀ (nms : List String),
      (∀ nm ∈ nms, (cols.find? (fun c => c.1 == nm)).map Prod.snd = some (g nm)) →
      selectCols cols nms = some (nms.map (fun nm => (nm, g nm)))
  | [], _ => rfl
  | nm :: ns, hall => by
    have h1 := hall nm (by simp)
    cases hfind : cols.find? (fun c => c.1 == nm) with
    | none => rw [hfind] at h1; simp at h1
    | some c =>
      rw [hfind] at h1
      simp only [Option.map_some'] at h1
      have ih := selectCols_of_forall cols g ns
        (fun m hm => hall m (List.mem_cons_of_mem nm hm))
      have h2 : c.2 = g nm := Option.some.inj h1
      unfold selectCols
      rw [hfind, ih]
      simp [h2]

theorem build_dataset_ok (groups : List (String × List (String × String))) (source : Dataset)
    (hlen1 : ¬ (keep_columns groups).length = 1)
    (hsrckeep : ∀ p ∈ (TARGET_COLUMN, TARGET_RENAMED) :: column_pairs groups,
        p.1 ∈ keep_columns groups)
    (hRen : ∀ p ∈ (TARGET_COLUMN, TARGET_RENAMED) :: column_pairs groups,
        ∀ nm ∈ keep_columns groups,
        (applyRename (renameMap groups) nm = p.2 ↔ nm = p.1))
    (hsub : ∀ m ∈ keep_columns groups, m ∈ source.names) :
    build_dataset groups source
      = .ok ⟨((TARGET_COLUMN, TARGET_RENAMED) :: column_pairs groups).map
          (fun p => (p.2, (source.getCol p.1).getD []))⟩ := by
  have hframe_sub : ∀ c ∈ source.cols.filter
      (fun c => (keep_columns groups).contains c.1), c.1 ∈ keep_columns groups := by
    intro c hc
    simpa using (List.mem_filter.mp hc).2
  have hpair : ∀ p ∈ (TARGET_COLUMN, TARGET_RENAMED) :: column_pairs groups,
      (((source.cols.filter (fun c => (keep_columns groups).contains c.1)).map
          (fun c => (applyRename (renameMap groups) c.1, c.2))).find?
        (fun c => c.1 == p.2)).map Prod.snd = some ((source.getCol p.1).getD []) := by
    intro p hp
    have hkeep1 : p.1 ∈ keep_columns groups := hsrckeep p hp
    obtain ⟨v, hv⟩ := find?_of_mem_names source.cols p.1 (hsub p.1 hkeep1)
    have h1 : (source.cols.filter (fun c => (keep_columns groups).contains c.1)).find?
        (fun c => c.1 == p.1) = source.cols.find? (fun c => c.1 == p.1) :=
      find?_filter_keep source.cols (fun nm => (keep_columns groups).contains nm) p.1
        (by simpa using hkeep1)
    have h2 : ((source.cols.filter (fun c => (keep_columns groups).contains c.1)).map
          (fun c => (applyRename (renameMap groups) c.1, c.2))).find? (fun c => c.1 == p.2)
        = ((source.cols.filter (fun c => (keep_columns groups).contains c.1)).find?
            (fun c => c.1 == p.1)).map (fun c => (applyRename (renameMap groups) c.1, c.2)) :=
      find?_map_rename (renameMap groups) (keep_columns groups) p.1 p.2
        (fun nm hnm => hRen p hp nm hnm) _ hframe_sub
    rw [h2, h1, hv]
    simp [Dataset.getCol, hv]
  have hmiss : missing_columns (keep_columns groups)
      (Dataset.mk (source.cols.filter (fun c => (keep_columns groups).contains c.1))).names
      = [] := by
    rw [List.eq_nil_iff_forall_not_mem]
    intro m hm
    rw [mem_missing_columns] at hm
    apply hm.2
    have heq : (Dataset.mk (source.cols.filter
        (fun c => (keep_columns groups).contains c.1))).names
        = source.names.filter (fun nm => (keep_columns groups).contains nm) :=
      names_filter source.cols (fun nm => (keep_columns groups).contains nm)
    rw [heq, List.mem_filter]
    exact ⟨hsub m hm.1, by simpa using hm.1⟩
  have hsel := selectCols_of_forall
      ((source.cols.filter (fun c => (keep_columns groups).contains c.1)).map
        (fun c => (applyRename (renameMap groups) c.1, c.2)))
      (fun nm => ((((source.cols.filter (fun c => (keep_columns groups).contains c.1)).map
          (fun c => (applyRename (renameMap groups) c.1, c.2))).find?
            (fun c => c.1 == nm)).map Prod.snd).getD [])
      (ordered_columns groups)
      (by
        intro nm hnm
        have hmem : nm ∈ ((TARGET_COLUMN, TARGET_RENAMED) :: column_pairs groups).map Prod.snd := by
          simpa [ordered_columns] using hnm
        obtain ⟨p, hp, hpe⟩ := List.mem_map.mp hmem
        subst hpe
        simp only [hpair p hp, Option.getD_some])
  have hout : selectCols
      ((source.cols.filter (fun c => (keep_columns groups).contains c.1)).map
        (fun c => (applyRename (renameMap groups) c.1, c.2)))
      (ordered_columns groups)
      = some (((TARGET_COLUMN, TARGET_RENAMED) :: column_pairs groups).map
          (fun p => (p.2, (source.getCol p.1).getD []))) := by
    rw [hsel]
    congr 1
    have hOrd : ordered_columns groups
        = ((TARGET_COLUMN, TARGET_RENAMED) :: column_pairs groups).map Prod.snd := by
      simp [ordered_columns]
    rw [hOrd, List.map_map]
    apply List.map_congr_left
    intro p hp
    have hpv := hpair p hp
    show (p.2, _) = (p.2, (source.getCol p.1).getD [])
    rw [Prod.mk.injEq]
    refine ⟨rfl, ?_⟩
    show ((((source.cols.filter (fun c => (keep_columns groups).contains c.1)).map
        (fun c => (applyRename (renameMap groups) c.1, c.2))).find?
          (fun c => c.1 == p.2)).map Prod.snd).getD [] = (source.getCol p.1).getD []
    rw [hpv]
    rfl
  have hempB : (missing_columns (keep_columns groups)
      (Dataset.mk (source.cols.filter
        (fun c => (keep_columns groups).contains c.1))).names).isEmpty = true := by
    rw [hmiss]
    rfl
  simp only [build_dataset]
  rw [if_neg hlen1, if_pos hempB, hout]

/-- C2: Feature Subsetter correctness — for every source dataset that
contains all required source columns (all columns holding `n` rows),
`build_dataset` succeeds, the output column list equals `LifeSat`
followed by the renamed predictors in declared group-then-within-group
order (so it does not depend on the input file's column order), each
output column carries exactly the cell values of its source column under
the one-to-one rename mapping, and the row count equals the input row
count. -/
theorem feature_subsetter_correct (source : Dataset) (n : Nat)
    (hsub : ∀ m ∈ keep_columns COLUMN_GROUPS, m ∈ source.names)
    (hn : ∀ c ∈ source.cols, c.2.length = n) :
    ∃ out, build_dataset COLUMN_GROUPS source = .ok out ∧
      out.names = ordered_columns COLUMN_GROUPS ∧
      out.cols = ((TARGET_COLUMN, TARGET_RENAMED) :: column_pairs COLUMN_GROUPS).map
          (fun p => (p.2, (source.getCol p.1).getD [])) ∧
      (∀ c ∈ out.cols, c.2.length = n) := by
  have hsrckeep : ∀ p ∈ (TARGET_COLUMN, TARGET_RENAMED) :: column_pairs COLUMN_GROUPS,
      p.1 ∈ keep_columns COLUMN_GROUPS := by decide
  have hb := build_dataset_ok COLUMN_GROUPS source (by decide) hsrckeep (by decide) hsub
  refine ⟨_, hb, ?_, rfl, ?_⟩
  · show (((TARGET_COLUMN, TARGET_RENAMED) :: column_pairs COLUMN_GROUPS).map
        (fun p => (p.2, (source.getCol p.1).getD []))).map Prod.fst
      = ordered_columns COLUMN_GROUPS
    rw [List.map_map]
    simp [ordered_columns, Function.comp]
  · intro c hc
    obtain ⟨p, hp, hpe⟩ := List.mem_map.mp hc
    obtain ⟨v, hv⟩ := find?_of_mem_names source.cols p.1 (hsub p.1 (hsrckeep p hp))
    have hvals : (source.getCol p.1).getD [] = v := by
      simp [Dataset.getCol, hv]
    have hvmem : (p.1, v) ∈ source.cols := List.mem_of_find?_eq_some hv
    have hvl : v.length = n := hn (p.1, v) hvmem
    rw [← hpe]
    simpa [hvals] using hvl

/-- Witness for C2: a concrete source dataset holding every required
column with one row. -/
theorem feature_subsetter_correct_witness :
    ∃ out, build_dataset COLUMN_GROUPS
        ⟨(keep_columns COLUMN_GROUPS).map (fun m => (m, ["7"]))⟩ = .ok out ∧
      out.names = ordered_columns COLUMN_GROUPS ∧
      out.cols = ((TARGET_COLUMN, TARGET_RENAMED) :: column_pairs COLUMN_GROUPS).map
          (fun p => (p.2,
            ((Dataset.mk ((keep_columns COLUMN_GROUPS).map (fun m => (m, ["7"])))).getCol
              p.1).getD [])) ∧
      (∀ c ∈ out.cols, c.2.length = 1) := by
  have h := feature_subsetter_correct
    ⟨(keep_columns COLUMN_GROUPS).map (fun m => (m, ["7"]))⟩ 1 (by decide) (by decide)
  exact h

/-- C5: compound-field split values — for every compound cell that splits
into exactly two numeric parts around the slash, the two derived columns
hold the floating-point values of the before-slash and after-slash parts
respectively, each independently parsed; for a null or empty source cell
both derived columns are null. -/
theorem compound_split_values (s a b : String) (qa qb : ℚ)
    (hsplit : pySplitSlash s = [a, b])
    (ha : parseFloatChars a.toList = some qa)
    (hb : parseFloatChars b.toList = some qb) :
    splitIndexFloat (PyVal.str s) 0 = .ok (some qa) ∧
    splitIndexFloat (PyVal.str s) 1 = .ok (some qb) ∧
    (∀ i, splitIndexFloat PyVal.none i = .ok none) ∧
    (∀ i, splitIndexFloat (PyVal.str "") i = .ok none) := by
  have hne : ¬ s = "" := by
    intro h
    subst h
    simp [pySplitSlash, splitChars] at hsplit
  have hie : s.isEmpty = false := by
    cases hh : s.isEmpty
    · rfl
    · exact absurd (((String.isEmpty_iff s).mp hh)) hne
  have htr : pyTruthy (PyVal.str s) = true := by
    simp [pyTruthy, hie]
  have ha2 : parseFloatChars a.data = some qa := ha
  have hb2 : parseFloatChars b.data = some qb := hb
  refine ⟨?_, ?_, fun i => rfl, fun i => rfl⟩
  · simp [splitIndexFloat, htr, hsplit, ha2]
  · simp [splitIndexFloat, htr, hsplit, hb2]

/-- Witness for C5 at the spec's example cell "12.5/34.2". -/
theorem compound_split_values_witness :
    splitIndexFloat (PyVal.str "12.5/34.2") 0 = .ok (some (Rat.divInt 25 2)) ∧
    splitIndexFloat (PyVal.str "12.5/34.2") 1 = .ok (some (Rat.divInt 171 5)) ∧
    (∀ i, splitIndexFloat PyVal.none i = .ok none) ∧
    (∀ i, splitIndexFloat (PyVal.str "") i = .ok none) :=
  compound_split_values "12.5/34.2" "12.5" "34.2" (Rat.divInt 25 2) (Rat.divInt 171 5)
    (by decide) (by decide) (by decide)

/-- C3 counterexample: the malformed compound cell "abc" does not split
into two parseable numeric parts, yet the Transaction Flattener raises an
uncaught `ValueError` for it instead of resolving it to a null value. -/
theorem compound_malformed_counterexample :
    pySplitSlash "abc" = ["abc"] ∧
    splitIndexFloat (PyVal.str "abc") 0
      = .error "ValueError: could not convert string to float: abc" ∧
    ∀ q : Option ℚ, ¬ splitIndexFloat (PyVal.str "abc") 0 = .ok q := by
  refine ⟨by decide, by decide, ?_⟩
  intro q h
  have h2 : splitIndexFloat (PyVal.str "abc") 0
      = .error "ValueError: could not convert string to float: abc" := by decide
  rw [h2] at h
  exact Except.noConfusion h

/-- C3 amended: a falsy compound cell (null or the empty string) yields a
null derived value, but a truthy string cell whose selected slash-part is
missing or not parseable makes the Transaction Flattener raise an
uncaught exception — a fatal error, not a locally-resolved null. -/
theorem compound_malformed_raises (s : String) (i : Nat) (hs : ¬ s = "")
    (hbad : ∀ part, (pySplitSlash s)[i]? = some part → parseFloatChars part.toList = none) :
    (∃ msg, splitIndexFloat (PyVal.str s) i = .error msg) ∧
    splitIndexFloat PyVal.none i = .ok none ∧
    splitIndexFloat (PyVal.str "") i = .ok none := by
  refine ⟨?_, rfl, rfl⟩
  have hie : s.isEmpty = false := by
    cases hh : s.isEmpty
    · rfl
    · exact absurd (((String.isEmpty_iff s).mp hh)) hs
  have htr : pyTruthy (PyVal.str s) = true := by
    simp [pyTruthy, hie]
  cases hidx : (pySplitSlash s)[i]? with
  | none =>
    exact ⟨"IndexError: list index out of range", by simp [splitIndexFloat, htr, hidx]⟩
  | some part =>
    have hbad2 : parseFloatChars part.data = none := hbad part hidx
    exact ⟨"ValueError: could not convert string to float: " ++ part,
      by simp [splitIndexFloat, htr, hidx, hbad2]⟩

/-- Witness for C3's amended theorem at the malformed cell "abc". -/
theorem compound_malformed_raises_witness :
    (∃ msg, splitIndexFloat (PyVal.str "abc") 0 = .error msg) ∧
    splitIndexFloat PyVal.none 0 = .ok none ∧
    splitIndexFloat (PyVal.str "") 0 = .ok none :=
  compound_malformed_raises "abc" 0 (by decide)
    (fun part h => by
      have h0 : (pySplitSlash "abc")[0]? = some "abc" := by decide
      rw [h0] at h
      have hpe : part = "abc" := (Option.some.inj h).symm
      subst hpe
      decide)

/-- C10: falsy-coercion edge case — for each of the four coerced fields,
the derived value is null exactly when the source cell is falsy (null,
the empty string, or the number 0); any other cell is coerced exactly as
`float(source)` behaves (its value, or its uncaught exception).  In
particular a genuine numeric 0 is silently converted to null while the
non-empty string "0" is parsed to the number 0. -/
theorem falsy_coercion (f : String) (_hf : f ∈ coercedFields) (x : PyVal) :
    (floatIfTruthy x = .ok none ↔ (x = PyVal.none ∨ x = PyVal.str "" ∨ x = PyVal.num 0)) ∧
    ((¬ x = PyVal.none ∧ ¬ x = PyVal.str "" ∧ ¬ x = PyVal.num 0) →
      floatIfTruthy x = (pyFloat x).map some) ∧
    floatIfTruthy (PyVal.num 0) = .ok none ∧
    floatIfTruthy (PyVal.str "0") = .ok (some 0) := by
  have henum : pyTruthy x = false ↔ (x = PyVal.none ∨ x = PyVal.str "" ∨ x = PyVal.num 0) := by
    cases x with
    | none => simp [pyTruthy]
    | str s => simp [pyTruthy, String.isEmpty_iff]
    | num q => simp [pyTruthy]
  refine ⟨⟨?_, ?_⟩, ?_, by decide, by decide⟩
  · intro h
    rw [← henum]
    cases hh : pyTruthy x
    · rfl
    · exfalso
      rw [floatIfTruthy, if_pos hh] at h
      cases hpf : pyFloat x with
      | ok q => rw [hpf] at h; simp [Except.map] at h
      | error e => rw [hpf] at h; simp [Except.map] at h
  · intro h
    have hfalse : pyTruthy x = false := henum.mpr h
    simp [floatIfTruthy, hfalse]
  · intro h
    have htr : pyTruthy x = true := by
      cases hh : pyTruthy x
      · exact absurd (henum.mp hh) (by tauto)
      · rfl
    simp [floatIfTruthy, htr]

/-- Witness for C10 at the field `transaction_price` and several concrete
cell values. -/
theorem falsy_coercion_witness :
    floatIfTruthy (PyVal.str "2.5") = (pyFloat (PyVal.str "2.5")).map some ∧
    (floatIfTruthy (PyVal.num 0) = .ok none ↔
      (PyVal.num 0 = PyVal.none ∨ PyVal.num 0 = PyVal.str "" ∨ PyVal.num (0:ℚ) = PyVal.num 0)) ∧
    floatIfTruthy (PyVal.str "0") = .ok (some 0) :=
  ⟨(falsy_coercion "transaction_price" (by decide) (PyVal.str "2.5")).2.1 (by decide),
   (falsy_coercion "transaction_price" (by decide) (PyVal.num 0)).1,
   (falsy_coercion "transaction_price" (by decide) (PyVal.str "0")).2.2.2⟩
